import Mathlib

/-!
# Shallow embedding of the DSTechLabs StepperMotor firmware core

This file embeds the motion-control core of `src/Firmware/src/StepperMotor.cpp`
(class `StepperMotor`) as pure Lean functions over an explicit state record,
and proves properties of the embedded code.

Modelling conventions:
* C++ `long` / `int` fields are modelled as `Int`; `unsigned long NextStepMicros`
  is modelled as `Nat` (the monotonic microsecond clock).  The claims under study
  stay far inside the 32-bit range, so two's-complement wraparound is not modelled.
* GPIO side effects (`digitalWrite`, `doStep`, `delayMicroseconds`) have no effect
  on the member fields; `Run` additionally reports whether a step pulse was
  emitted (`doStep` called) as a `Bool`, and reads the current clock value and the
  (active-low) limit-switch levels from a `RunInput` record.
* `micros()` is passed in as `RunInput.now`; `digitalRead (LLSwitchPin) == LOW`
  is `RunInput.llSwitchLow` (only consulted when the pin is configured, i.e. `≥ 0`).
* C++ integer division on `long` truncates toward zero, hence `Int.tdiv`.
-/

/-- The `enum MotorState` from `StepperMotor.h`. -/
inductive MotorState where
  | MS_ENABLED
  | MS_DISABLED
  | MS_RUNNING
  | MS_ESTOPPED
deriving DecidableEq, Repr

export MotorState (MS_ENABLED MS_DISABLED MS_RUNNING MS_ESTOPPED)

/-- The `enum RunReturn` from `StepperMotor.h`. -/
inductive RunReturn where
  | OKAY
  | RUN_COMPLETE
  | RANGE_ERROR_LOWER
  | RANGE_ERROR_UPPER
  | LIMIT_SWITCH_LOWER
  | LIMIT_SWITCH_UPPER
deriving DecidableEq, Repr

export RunReturn (OKAY RUN_COMPLETE RANGE_ERROR_LOWER RANGE_ERROR_UPPER
  LIMIT_SWITCH_LOWER LIMIT_SWITCH_UPPER)

/-- The member fields of `class StepperMotor` (`StepperMotor.h`).
Pin numbers for the limit switches are kept because `Run` tests
`LLSwitchPin >= 0` / `ULSwitchPin >= 0`; the three driver pins only ever
receive writes and are omitted. -/
structure Stepper where
  State             : MotorState
  Homed             : Bool
  LLSwitchPin       : Int
  ULSwitchPin       : Int
  MaxVelocity       : Int
  TargetOrSteps     : Int
  TotalSteps        : Int
  StepCount         : Int
  StepIncrement     : Int
  AbsolutePosition  : Int
  DeltaPosition     : Int
  TargetPosition    : Int
  LowerLimit        : Int
  UpperLimit        : Int
  RampSteps         : Int
  RampDownStep      : Int
  Velocity          : Int
  VelocityIncrement : Int
  NextPosition      : Int
  NextStepMicros    : Nat
deriving DecidableEq, Repr

/-- The `const long RampScale = 5L;` (`StepperMotor.h`). -/
def RampScale : Int := 5

/-- The `#define HOMING_SPEED 3000L` (`StepperMotor.h`). -/
def HOMING_SPEED : Int := 3000

/-- Inputs sampled by one call to `Run`: the monotonic clock `micros()` and the
active-low limit-switch levels (`true` = `digitalRead(pin) == LOW`). -/
structure RunInput where
  now         : Nat
  llSwitchLow : Bool
  ulSwitchLow : Bool
deriving DecidableEq, Repr

/-- The constructor `StepperMotor::StepperMotor`: initial field values.
`NextStepMicros = -1L` stored into a 32-bit `unsigned long` reads back as
`2^32 - 1`. -/
def initial (llSwitchPin ulSwitchPin : Int) : Stepper where
  State             := MS_DISABLED
  Homed             := false
  LLSwitchPin       := llSwitchPin
  ULSwitchPin       := ulSwitchPin
  MaxVelocity       := 0
  TargetOrSteps     := 0
  TotalSteps        := 0
  StepCount         := 0
  StepIncrement     := 1
  AbsolutePosition  := 0
  DeltaPosition     := 0
  TargetPosition    := 0
  LowerLimit        := -2000000000
  UpperLimit        := 2000000000
  RampSteps         := 0
  RampDownStep      := 0
  Velocity          := 0
  VelocityIncrement := RampScale * 5
  NextPosition      := 0
  NextStepMicros    := 2 ^ 32 - 1

/-- The `StepperMotor::Run` (StepperMotor.cpp lines 73–144).
Returns the post state, the `RunReturn` value, and whether `doStep()` was
executed (a physical pulse emitted). -/
def Run (m : Stepper) (i : RunInput) : Stepper × RunReturn × Bool :=
  -- Is the motor RUNNING and is it time for it to step
  if m.Homed = true ∧ m.State = MS_RUNNING ∧ i.now ≥ m.NextStepMicros then
    -- Is the motor at the target position?
    if m.AbsolutePosition = m.TargetPosition then
      ({ m with State := MS_ENABLED }, RUN_COMPLETE, false)
    else
      -- No, so continue motion
      let next := m.AbsolutePosition + m.StepIncrement
      -- Check next position against range limits
      if next < m.LowerLimit then
        ({ m with NextPosition := next, State := MS_ENABLED }, RANGE_ERROR_LOWER, false)
      else if next > m.UpperLimit then
        ({ m with NextPosition := next, State := MS_ENABLED }, RANGE_ERROR_UPPER, false)
      else
        -- Perform a single step (doStep) and set current position
        let delta2 := m.DeltaPosition + m.StepIncrement
        -- Check limit switches, if specified
        if m.LLSwitchPin ≥ 0 ∧ i.llSwitchLow = true then
          ({ m with NextPosition := next, AbsolutePosition := next,
                    DeltaPosition := delta2, State := MS_ENABLED },
           LIMIT_SWITCH_LOWER, true)
        else if m.ULSwitchPin ≥ 0 ∧ i.ulSwitchLow = true then
          ({ m with NextPosition := next, AbsolutePosition := next,
                    DeltaPosition := delta2, State := MS_ENABLED },
           LIMIT_SWITCH_UPPER, true)
        else
          -- Adjust velocity if ramping
          let sc := |delta2|
          let vel2 :=
            if sc ≤ m.RampSteps then m.Velocity + m.VelocityIncrement
            else if sc > m.RampDownStep then m.Velocity - m.VelocityIncrement
            else m.Velocity
          -- Set time for next step
          let nsm2 :=
            if vel2 > 0 then m.NextStepMicros + (Int.tdiv 1000000 vel2).toNat
            else m.NextStepMicros
          ({ m with NextPosition := next, AbsolutePosition := next,
                    DeltaPosition := delta2, StepCount := sc,
                    Velocity := vel2, NextStepMicros := nsm2 },
           OKAY, true)
  else
    (m, OKAY, false)

/-- The `StepperMotor::startRotation` (StepperMotor.cpp lines 148–189).
`now` is the value of `micros()` at the call. -/
def startRotation (m : Stepper) (now : Nat) : Stepper :=
  -- Determine number of steps in ramp and set starting speed
  let m1 :=
    if m.VelocityIncrement = 0 then
      -- Immediate full speed, no ramping
      { m with RampSteps := 0, Velocity := m.MaxVelocity }
    else
      let rs := Int.tdiv m.MaxVelocity m.VelocityIncrement
      if rs = 0 then
        { m with RampSteps := rs, Velocity := m.MaxVelocity }
      else
        { m with RampSteps := rs, Velocity := 0 }
  -- Set on what step to start ramping down
  let m2 :=
    if m1.TotalSteps > 2 * m1.RampSteps then
      { m1 with RampDownStep := m1.TotalSteps - m1.RampSteps }
    else
      { m1 with RampSteps := Int.tdiv m1.TotalSteps 2,
                RampDownStep := Int.tdiv m1.TotalSteps 2 }
  -- Set Direction
  let m3 :=
    if m2.TargetPosition ≥ m2.AbsolutePosition then
      { m2 with StepIncrement := 1 }
    else
      { m2 with StepIncrement := -1 }
  -- Start rotation
  { m3 with DeltaPosition := 0, NextStepMicros := now + 10, State := MS_RUNNING }

/-- The `StepperMotor::SetHomePosition` (lines 270–280). -/
def SetHomePosition (m : Stepper) : Stepper :=
  if m.State = MS_ENABLED then
    { m with AbsolutePosition := 0, DeltaPosition := 0, Homed := true }
  else
    m

/-- The `StepperMotor::Enable` (lines 211–219): enable driver, become
`MS_ENABLED`, then `SetHomePosition ()`. -/
def Enable (m : Stepper) : Stepper :=
  SetHomePosition { m with State := MS_ENABLED }

/-- The `StepperMotor::Disable` (lines 223–230). -/
def Disable (m : Stepper) : Stepper :=
  { m with State := MS_DISABLED, Homed := false }

/-- The `StepperMotor::SetLowerLimit` (lines 284–289). -/
def SetLowerLimit (m : Stepper) (lowerLimit : Int) : Stepper :=
  if lowerLimit ≤ 0 ∧ lowerLimit ≤ m.UpperLimit then
    { m with LowerLimit := lowerLimit }
  else
    m

/-- The `StepperMotor::SetUpperLimit` (lines 293–298). -/
def SetUpperLimit (m : Stepper) (upperLimit : Int) : Stepper :=
  if upperLimit ≥ 0 ∧ upperLimit ≥ m.LowerLimit then
    { m with UpperLimit := upperLimit }
  else
    m

/-- The `StepperMotor::SetRamp` (lines 302–313). -/
def SetRamp (m : Stepper) (ramp : Int) : Stepper :=
  if ramp ≥ 0 ∧ ramp ≤ 9 then
    if ramp = 0 then
      { m with VelocityIncrement := 0 }
    else
      { m with VelocityIncrement := RampScale * (10 - ramp) }
  else
    m

/-- The `StepperMotor::RotateAbsolute` (lines 317–324). -/
def RotateAbsolute (m : Stepper) (newPosition : Int) (stepsPerSecond : Int)
    (now : Nat) : Stepper :=
  startRotation
    { m with TargetPosition := newPosition,
             MaxVelocity := stepsPerSecond,
             TotalSteps := |newPosition - m.AbsolutePosition| }
    now

/-- The `StepperMotor::RotateRelative` (lines 328–339). -/
def RotateRelative (m : Stepper) (numSteps : Int) (stepsPerSecond : Int)
    (now : Nat) : Stepper :=
  if numSteps ≠ 0 then
    startRotation
      { m with TargetPosition := m.AbsolutePosition + numSteps,
               MaxVelocity := stepsPerSecond,
               TotalSteps := |numSteps| }
      now
  else
    m

/-- The `StepperMotor::RotateToHome` (lines 343–350). -/
def RotateToHome (m : Stepper) (now : Nat) : Stepper :=
  startRotation
    { m with MaxVelocity := HOMING_SPEED,
             TargetPosition := 0,
             TotalSteps := |m.AbsolutePosition| }
    now

/-- The `StepperMotor::RotateToLowerLimit` (lines 354–361). -/
def RotateToLowerLimit (m : Stepper) (now : Nat) : Stepper :=
  startRotation
    { m with MaxVelocity := HOMING_SPEED,
             TargetPosition := m.LowerLimit,
             TotalSteps := |m.AbsolutePosition - m.LowerLimit| }
    now

/-- The `StepperMotor::RotateToUpperLimit` (lines 365–372). -/
def RotateToUpperLimit (m : Stepper) (now : Nat) : Stepper :=
  startRotation
    { m with MaxVelocity := HOMING_SPEED,
             TargetPosition := m.UpperLimit,
             TotalSteps := |m.AbsolutePosition - m.UpperLimit| }
    now

/-- The `StepperMotor::EStop` (lines 376–386). -/
def EStop (m : Stepper) : Stepper :=
  { m with State := MS_ESTOPPED, Homed := false,
           TargetPosition := m.AbsolutePosition }

/-- The `StepperMotor::FindHome` (lines 234–266), restricted to its effect on the
member fields: the seek/back-off loops only call `doStep`/`digitalWrite`,
which touch no field, so the field-level effect is `Enable` followed by
`SetHomePosition`, and nothing when no lower-limit switch is configured. -/
def FindHome (m : Stepper) : Stepper :=
  if m.LLSwitchPin ≥ 0 then
    SetHomePosition (Enable m)
  else
    m

/-- One host-visible operation on the motor (every public mutating method of
`class StepperMotor`; the queries `IsHomed`, `GetState`, `Get*`, `GetVersion`
and `BlinkLED` read or touch no member field). -/
inductive Op where
  | run (i : RunInput)
  | enable
  | disable
  | findHome
  | setHomePosition
  | setLowerLimit (v : Int)
  | setUpperLimit (v : Int)
  | setRamp (r : Int)
  | rotateAbsolute (p v : Int) (now : Nat)
  | rotateRelative (n v : Int) (now : Nat)
  | rotateToHome (now : Nat)
  | rotateToLowerLimit (now : Nat)
  | rotateToUpperLimit (now : Nat)
  | eStop

/-- Apply one operation to the motor state. -/
def applyOp (m : Stepper) : Op → Stepper
  | Op.run i                  => (Run m i).1
  | Op.enable                 => Enable m
  | Op.disable                => Disable m
  | Op.findHome               => FindHome m
  | Op.setHomePosition        => SetHomePosition m
  | Op.setLowerLimit v        => SetLowerLimit m v
  | Op.setUpperLimit v        => SetUpperLimit m v
  | Op.setRamp r              => SetRamp m r
  | Op.rotateAbsolute p v t   => RotateAbsolute m p v t
  | Op.rotateRelative n v t   => RotateRelative m n v t
  | Op.rotateToHome t         => RotateToHome m t
  | Op.rotateToLowerLimit t   => RotateToLowerLimit m t
  | Op.rotateToUpperLimit t   => RotateToUpperLimit m t
  | Op.eStop                  => EStop m

/-- Apply a sequence of operations, oldest first. -/
def applyOps (m : Stepper) (ops : List Op) : Stepper :=
  ops.foldl applyOp m

/-- Drive the motor with up to `fuel` calls to `Run`, each at a time when the
step is due (`now = NextStepMicros`) and with the limit switches released;
stops at the first call that returns `RUN_COMPLETE`. -/
def runUntilComplete : Nat → Stepper → Stepper × RunReturn
  | 0, m => (m, OKAY)
  | fuel + 1, m =>
    let r := Run m ⟨m.NextStepMicros, false, false⟩
    if r.2.1 = RUN_COMPLETE then (r.1, r.2.1) else runUntilComplete fuel r.1

/-- A `Run` input with both limit switches released, sampled late enough that
a step is always due. -/
def ready : RunInput := ⟨1000000000, false, false⟩

/-- A homed, running motor one step below its upper limit, heading up:
used to witness C2. -/
def nearUpper : Stepper :=
  { initial (-1) (-1) with
    State := MS_RUNNING
    Homed := true
    AbsolutePosition := 2000000000
    TargetPosition := 2000000005
    StepIncrement := 1
    NextStepMicros := 0 }

/-- The `Enable(); SetHomePosition(); RotateRelative(n, v)` at time `now`
(the round-trip of C9). -/
def enableHomeRotate (m : Stepper) (n v : Int) (now : Nat) : Stepper :=
  RotateRelative (SetHomePosition (Enable m)) n v now

/-- A 3-step rotation at peak 50 with the default ramp (increment 25):
`RampSteps` becomes `50 tdiv 25 = 2`, then the stunted-triangle branch resets
`RampSteps = RampDownStep = 3 tdiv 2 = 1`.  Used for the C4 counterexample. -/
def triangle3 : Stepper := RotateRelative (Enable (initial (-1) (-1))) 3 50 0

/-- The `triangle3` after three due `Run` calls (the full 3-step motion). -/
def triangle3after : Stepper :=
  (Run (Run (Run triangle3 ready).1 ready).1 ready).1

/-- A 5-step trapezoid rotation at peak 30 with the default ramp increment 25:
`RampSteps = 30 tdiv 25 = 1`, `RampDownStep = 4`.  Used for the C6
counterexample. -/
def trap5 : Stepper := RotateRelative (Enable (initial (-1) (-1))) 5 30 0

/-- The `trap5` after two due `Run` calls: the second step is in the plateau. -/
def trap5after : Stepper := (Run (Run trap5 ready).1 ready).1

/-- A pre-`startRotation` state with `TotalSteps = 10`, `MaxVelocity = 50`
and the default `VelocityIncrement = 25`: used to witness C5. -/
def plan10 : Stepper :=
  { initial (-1) (-1) with
    TotalSteps := 10
    MaxVelocity := 50 }

/-- The `Enable (initial (-1) (-1))` written out as an explicit record (the
equality is proved in `enabled0_eval` below); used to keep concrete
evaluations shallow. -/
def enabled0 : Stepper where
  State             := MS_ENABLED
  Homed             := true
  LLSwitchPin       := -1
  ULSwitchPin       := -1
  MaxVelocity       := 0
  TargetOrSteps     := 0
  TotalSteps        := 0
  StepCount         := 0
  StepIncrement     := 1
  AbsolutePosition  := 0
  DeltaPosition     := 0
  TargetPosition    := 0
  LowerLimit        := -2000000000
  UpperLimit        := 2000000000
  RampSteps         := 0
  RampDownStep      := 0
  Velocity          := 0
  VelocityIncrement := 25
  NextPosition      := 0
  NextStepMicros    := 4294967295

/-- The `triangle3` written out as an explicit record. -/
def tri0 : Stepper :=
  { enabled0 with
    State := MS_RUNNING
    MaxVelocity := 50
    TotalSteps := 3
    TargetPosition := 3
    RampSteps := 1
    RampDownStep := 1
    NextStepMicros := 10 }

/-- The `triangle3` after one due step. -/
def tri1 : Stepper :=
  { tri0 with
    StepCount := 1
    AbsolutePosition := 1
    DeltaPosition := 1
    NextPosition := 1
    Velocity := 25
    NextStepMicros := 40010 }

/-- The `triangle3` after two due steps (ramp-down has begun). -/
def tri2 : Stepper :=
  { tri1 with
    StepCount := 2
    AbsolutePosition := 2
    DeltaPosition := 2
    NextPosition := 2
    Velocity := 0 }

/-- The `triangle3` after three due steps: still `MS_RUNNING`, velocity `-25`. -/
def tri3 : Stepper :=
  { tri2 with
    StepCount := 3
    AbsolutePosition := 3
    DeltaPosition := 3
    NextPosition := 3
    Velocity := -25 }

/-- The `trap5` written out as an explicit record. -/
def trap0 : Stepper :=
  { enabled0 with
    State := MS_RUNNING
    MaxVelocity := 30
    TotalSteps := 5
    TargetPosition := 5
    RampSteps := 1
    RampDownStep := 4
    NextStepMicros := 10 }

/-- The `trap5` after one due step (end of ramp-up). -/
def trap1 : Stepper :=
  { trap0 with
    StepCount := 1
    AbsolutePosition := 1
    DeltaPosition := 1
    NextPosition := 1
    Velocity := 25
    NextStepMicros := 40010 }

/-- The `trap5` after two due steps: in the plateau with velocity 25. -/
def trap2 : Stepper :=
  { trap1 with
    StepCount := 2
    AbsolutePosition := 2
    DeltaPosition := 2
    NextPosition := 2
    NextStepMicros := 80010 }

/-- The invariant maintained by `Run` along a rotation started by one of the
rotate operations.  Writing `k` for the number of steps taken so far
(`|DeltaPosition|`), it records the ramp-plan shape produced by
`startRotation`, the relation between `DeltaPosition`, `AbsolutePosition` and
`TargetPosition`, and the exact velocity profile
`Velocity = V0 + VelocityIncrement * (min k RampSteps - max 0 (k - RampDownStep))`
with a non-negative starting velocity `V0` that is `0` whenever
`RampSteps > 0`. -/
def RunInv (m : Stepper) : Prop :=
  (m.StepIncrement = 1 ∨ m.StepIncrement = -1) ∧
  0 ≤ m.VelocityIncrement ∧
  0 ≤ m.RampSteps ∧
  m.RampSteps ≤ m.RampDownStep ∧
  m.RampDownStep ≤ m.TotalSteps ∧
  m.TotalSteps - m.RampDownStep ≤ m.RampSteps + 1 ∧
  |m.DeltaPosition| ≤ m.TotalSteps ∧
  m.DeltaPosition = |m.DeltaPosition| * m.StepIncrement ∧
  m.TargetPosition - m.AbsolutePosition =
    (m.TotalSteps - |m.DeltaPosition|) * m.StepIncrement ∧
  0 ≤ m.Velocity - m.VelocityIncrement *
      (min |m.DeltaPosition| m.RampSteps - max 0 (|m.DeltaPosition| - m.RampDownStep)) ∧
  (0 < m.RampSteps →
    m.Velocity = m.VelocityIncrement *
      (min |m.DeltaPosition| m.RampSteps - max 0 (|m.DeltaPosition| - m.RampDownStep)))

instance (m : Stepper) : Decidable (RunInv m) := by
  unfold RunInv; infer_instance

/-! ## Helper lemmas about the embedded operations -/

/-- Fields that `startRotation` never touches, and the fields it always sets. -/
theorem startRotation_effect (m : Stepper) (now : Nat) :
    (startRotation m now).State = MS_RUNNING ∧
    (startRotation m now).DeltaPosition = 0 ∧
    (startRotation m now).NextStepMicros = now + 10 ∧
    (startRotation m now).Homed = m.Homed ∧
    (startRotation m now).AbsolutePosition = m.AbsolutePosition ∧
    (startRotation m now).TargetPosition = m.TargetPosition ∧
    (startRotation m now).MaxVelocity = m.MaxVelocity ∧
    (startRotation m now).TotalSteps = m.TotalSteps ∧
    (startRotation m now).VelocityIncrement = m.VelocityIncrement ∧
    (startRotation m now).LowerLimit = m.LowerLimit ∧
    (startRotation m now).UpperLimit = m.UpperLimit ∧
    (startRotation m now).LLSwitchPin = m.LLSwitchPin ∧
    (startRotation m now).ULSwitchPin = m.ULSwitchPin := by
  simp only [startRotation]
  split_ifs <;> simp

/-- When the motor is not homed, `Run` does nothing and returns `OKAY`. -/
theorem run_not_homed (m : Stepper) (i : RunInput) (h : m.Homed = false) :
    Run m i = (m, OKAY, false) := by
  simp [Run, h]

/-- Fields that `Run` never modifies. -/
theorem run_frame (m : Stepper) (i : RunInput) :
    (Run m i).1.LowerLimit = m.LowerLimit ∧
    (Run m i).1.UpperLimit = m.UpperLimit ∧
    (Run m i).1.TargetPosition = m.TargetPosition ∧
    (Run m i).1.StepIncrement = m.StepIncrement ∧
    (Run m i).1.Homed = m.Homed ∧
    (Run m i).1.VelocityIncrement = m.VelocityIncrement ∧
    (Run m i).1.RampSteps = m.RampSteps ∧
    (Run m i).1.RampDownStep = m.RampDownStep ∧
    (Run m i).1.TotalSteps = m.TotalSteps ∧
    (Run m i).1.LLSwitchPin = m.LLSwitchPin ∧
    (Run m i).1.ULSwitchPin = m.ULSwitchPin ∧
    (Run m i).1.MaxVelocity = m.MaxVelocity ∧
    (Run m i).1.NextStepMicros ≥ m.NextStepMicros := by
  simp only [Run]
  split_ifs <;> simp

/-- The `Run` at the target position, when a step is due: completion. -/
theorem run_complete (m : Stepper) (i : RunInput)
    (hh : m.Homed = true) (hs : m.State = MS_RUNNING)
    (ht : i.now ≥ m.NextStepMicros) (heq : m.AbsolutePosition = m.TargetPosition) :
    Run m i = ({ m with State := MS_ENABLED }, RUN_COMPLETE, false) := by
  simp [Run, hh, hs, ht, heq]

/-- The `Run` when a step is due, the target not yet reached, the next position
inside the soft limits and neither switch tripped: one step is emitted. -/
theorem run_step (m : Stepper) (i : RunInput)
    (hh : m.Homed = true) (hs : m.State = MS_RUNNING)
    (ht : i.now ≥ m.NextStepMicros) (hne : m.AbsolutePosition ≠ m.TargetPosition)
    (hlo : ¬ m.AbsolutePosition + m.StepIncrement < m.LowerLimit)
    (hhi : ¬ m.AbsolutePosition + m.StepIncrement > m.UpperLimit)
    (hll : i.llSwitchLow = false) (hul : i.ulSwitchLow = false) :
    (Run m i).2.1 = OKAY ∧ (Run m i).2.2 = true ∧
    (Run m i).1.State = MS_RUNNING ∧
    (Run m i).1.AbsolutePosition = m.AbsolutePosition + m.StepIncrement ∧
    (Run m i).1.DeltaPosition = m.DeltaPosition + m.StepIncrement ∧
    (Run m i).1.Velocity =
      (if |m.DeltaPosition + m.StepIncrement| ≤ m.RampSteps then
        m.Velocity + m.VelocityIncrement
      else if |m.DeltaPosition + m.StepIncrement| > m.RampDownStep then
        m.Velocity - m.VelocityIncrement
      else m.Velocity) := by
  simp only [Run, hh, hs, hne, hll, hul]
  simp only [ge_iff_le] at ht
  simp [ht, hlo, hhi, hne, hs]

/-! ## C1: soft limits bound the position across `Run` -/

/-- C1: if `LowerLimit ≤ AbsolutePosition ≤ UpperLimit` holds before `Run`,
it holds after `Run` returns, for every return value; and whenever a step
pulse is emitted, the position after the pulse is still inside the original
`[LowerLimit, UpperLimit]` — no pulse ever moves the position out of range. -/
theorem C1_run_preserves_limits (m : Stepper) (i : RunInput)
    (h1 : m.LowerLimit ≤ m.AbsolutePosition) (h2 : m.AbsolutePosition ≤ m.UpperLimit) :
    ((Run m i).1.LowerLimit ≤ (Run m i).1.AbsolutePosition ∧
      (Run m i).1.AbsolutePosition ≤ (Run m i).1.UpperLimit) ∧
    ((Run m i).2.2 = true →
      m.LowerLimit ≤ (Run m i).1.AbsolutePosition ∧
      (Run m i).1.AbsolutePosition ≤ m.UpperLimit) := by
  simp only [Run]
  split_ifs <;> simp_all

/-- Witness for C1 at a concrete state. -/
theorem C1_witness :
    ((Run (initial (-1) (-1)) ⟨0, false, false⟩).1.LowerLimit ≤
        (Run (initial (-1) (-1)) ⟨0, false, false⟩).1.AbsolutePosition ∧
      (Run (initial (-1) (-1)) ⟨0, false, false⟩).1.AbsolutePosition ≤
        (Run (initial (-1) (-1)) ⟨0, false, false⟩).1.UpperLimit) ∧
    ((Run (initial (-1) (-1)) ⟨0, false, false⟩).2.2 = true →
      (initial (-1) (-1)).LowerLimit ≤
        (Run (initial (-1) (-1)) ⟨0, false, false⟩).1.AbsolutePosition ∧
      (Run (initial (-1) (-1)) ⟨0, false, false⟩).1.AbsolutePosition ≤
        (initial (-1) (-1)).UpperLimit) :=
  C1_run_preserves_limits (initial (-1) (-1)) ⟨0, false, false⟩ (by decide) (by decide)

/-! ## C2: soft range violations stop the motor with a typed error -/

/-- C2: with the motor homed, running, a step due, and the target not reached:
if the next position would cross below `LowerLimit`, `Run` drops to
`MS_ENABLED`, returns `RANGE_ERROR_LOWER`, emits no pulse and leaves
`AbsolutePosition`/`DeltaPosition` unchanged; symmetrically for `UpperLimit`
(the upper half additionally assumes `LowerLimit ≤ UpperLimit`, which holds
in every reachable state, cf. C8). -/
theorem C2_range_errors (m : Stepper) (i : RunInput)
    (hh : m.Homed = true) (hs : m.State = MS_RUNNING)
    (ht : i.now ≥ m.NextStepMicros) (hne : m.AbsolutePosition ≠ m.TargetPosition) :
    (m.AbsolutePosition + m.StepIncrement < m.LowerLimit →
      (Run m i).1.State = MS_ENABLED ∧ (Run m i).2.1 = RANGE_ERROR_LOWER ∧
      (Run m i).2.2 = false ∧
      (Run m i).1.AbsolutePosition = m.AbsolutePosition ∧
      (Run m i).1.DeltaPosition = m.DeltaPosition) ∧
    (m.LowerLimit ≤ m.UpperLimit →
      m.AbsolutePosition + m.StepIncrement > m.UpperLimit →
      (Run m i).1.State = MS_ENABLED ∧ (Run m i).2.1 = RANGE_ERROR_UPPER ∧
      (Run m i).2.2 = false ∧
      (Run m i).1.AbsolutePosition = m.AbsolutePosition ∧
      (Run m i).1.DeltaPosition = m.DeltaPosition) := by
  simp only [ge_iff_le] at ht
  constructor
  · intro hlo
    simp [Run, hh, hs, ht, hne, hlo]
  · intro hlu hhi
    have hlo : ¬ m.AbsolutePosition + m.StepIncrement < m.LowerLimit := by omega
    simp [Run, hh, hs, ht, hne, hlo, hhi]

/-- Witness for C2 at a concrete state one step below the upper limit. -/
theorem C2_witness :
    (Run nearUpper ready).1.State = MS_ENABLED ∧
    (Run nearUpper ready).2.1 = RANGE_ERROR_UPPER := by
  have h := C2_range_errors nearUpper ready
    (by decide) (by decide) (by decide) (by decide)
  exact ⟨(h.2 (by decide) (by decide)).1, (h.2 (by decide) (by decide)).2.1⟩

/-! ## C7: emergency stop -/

/-- C7: in every state, `EStop` moves to `MS_ESTOPPED`, clears `Homed` and
snaps `TargetPosition` to the current `AbsolutePosition`; afterwards every
call to `Run` returns `OKAY` and changes no field (motion cannot resume
until `Enable` re-establishes `Homed`). -/
theorem C7_estop (m : Stepper) (i : RunInput) :
    (EStop m).State = MS_ESTOPPED ∧
    (EStop m).Homed = false ∧
    (EStop m).TargetPosition = m.AbsolutePosition ∧
    Run (EStop m) i = (EStop m, OKAY, false) :=
  ⟨rfl, rfl, rfl, run_not_homed (EStop m) i rfl⟩

/-! ## C10: SetHomePosition acts only when MS_ENABLED -/

/-- C10: when the state is not `MS_ENABLED`, `SetHomePosition` is a complete
no-op; when it is `MS_ENABLED`, it zeroes `AbsolutePosition` and
`DeltaPosition`, sets `Homed`, and changes nothing else. -/
theorem C10_sethome_frame (m : Stepper) :
    (m.State ≠ MS_ENABLED → SetHomePosition m = m) ∧
    (m.State = MS_ENABLED →
      SetHomePosition m =
        { m with AbsolutePosition := 0, DeltaPosition := 0, Homed := true }) := by
  constructor <;> intro h <;> simp [SetHomePosition, h]

/-- Witness for C10: the freshly constructed motor is `MS_DISABLED`, and
`SetHomePosition` leaves it untouched. -/
theorem C10_witness :
    SetHomePosition (initial (-1) (-1)) = initial (-1) (-1) :=
  (C10_sethome_frame (initial (-1) (-1))).1 (by decide)

/-! ## C3: rotate operations while not homed

The claim says the rotate operations are no-ops when `Homed` is false.  In
the code, `RotateAbsolute`, `RotateToHome`, `RotateToLowerLimit`,
`RotateToUpperLimit` (and `RotateRelative` for a non-zero step count) call
`startRotation` unconditionally — there is no `Homed` guard anywhere on that
path — so they overwrite `TargetPosition`, `MaxVelocity`, `TotalSteps`, the
ramp plan, `DeltaPosition` and `State`.  Only `Run` checks `Homed`, so no
motion results. -/

/-- C3 counterexample: on the freshly constructed motor (`Homed = false`),
`RotateAbsolute 5 100` changes both `TargetPosition` and `State`, refuting
"each rotate operation is a no-op ... leaves State, TargetPosition, ...
unchanged". -/
theorem C3_counterexample :
    (initial (-1) (-1)).Homed = false ∧
    (RotateAbsolute (initial (-1) (-1)) 5 100 0).TargetPosition ≠
      (initial (-1) (-1)).TargetPosition ∧
    (RotateAbsolute (initial (-1) (-1)) 5 100 0).State ≠
      (initial (-1) (-1)).State := by
  decide

/-- C3 (amended): even with `Homed` false, the rotate operations mutate the
state — each (for `RotateRelative`, when `numSteps ≠ 0`) ends in
`State = MS_RUNNING` with the new target and a reset `DeltaPosition` — but
while `Homed` is false `Run` emits no step, changes no field and returns
`OKAY`, so no motion occurs. -/
theorem C3_rotate_not_noop_but_no_motion (m : Stepper) (i : RunInput)
    (p v n : Int) (now : Nat) :
    ((RotateAbsolute m p v now).State = MS_RUNNING ∧
      (RotateAbsolute m p v now).TargetPosition = p ∧
      (RotateAbsolute m p v now).MaxVelocity = v ∧
      (RotateAbsolute m p v now).DeltaPosition = 0) ∧
    (n ≠ 0 →
      (RotateRelative m n v now).State = MS_RUNNING ∧
      (RotateRelative m n v now).TargetPosition = m.AbsolutePosition + n ∧
      (RotateRelative m n v now).DeltaPosition = 0) ∧
    (RotateToHome m now).State = MS_RUNNING ∧
    (RotateToLowerLimit m now).State = MS_RUNNING ∧
    (RotateToUpperLimit m now).State = MS_RUNNING ∧
    (m.Homed = false → Run m i = (m, OKAY, false)) := by
  refine ⟨?_, ?_, ?_, ?_, ?_, run_not_homed m i⟩
  · exact ⟨(startRotation_effect _ now).1,
      (startRotation_effect _ now).2.2.2.2.2.1,
      (startRotation_effect _ now).2.2.2.2.2.2.1,
      (startRotation_effect _ now).2.1⟩
  · intro hn
    simp only [RotateRelative, if_pos hn]
    exact ⟨(startRotation_effect _ now).1,
      (startRotation_effect _ now).2.2.2.2.2.1,
      (startRotation_effect _ now).2.1⟩
  · exact (startRotation_effect _ now).1
  · exact (startRotation_effect _ now).1
  · exact (startRotation_effect _ now).1

/-- Witness for C3 (amended) on the fresh, un-homed motor. -/
theorem C3_witness :
    (RotateRelative (initial (-1) (-1)) 3 100 0).State = MS_RUNNING ∧
    Run (initial (-1) (-1)) ready = (initial (-1) (-1), OKAY, false) := by
  have h := C3_rotate_not_noop_but_no_motion (initial (-1) (-1)) ready 5 100 3 0
  exact ⟨(h.2.1 (by decide)).1, h.2.2.2.2.2 (by decide)⟩

/-! ## C8: limit setters and the limit invariant -/

/-- The `LowerLimit ≤ 0 ≤ UpperLimit`. -/
def LimitInv (m : Stepper) : Prop :=
  m.LowerLimit ≤ 0 ∧ 0 ≤ m.UpperLimit

/-- Every single operation preserves `LowerLimit ≤ 0 ≤ UpperLimit`. -/
theorem limitInv_applyOp (m : Stepper) (op : Op) (h : LimitInv m) :
    LimitInv (applyOp m op) := by
  obtain ⟨h1, h2⟩ := h
  cases op
  case run i =>
    exact ⟨le_of_eq_of_le (run_frame m i).1 h1,
      le_of_le_of_eq h2 (run_frame m i).2.1.symm⟩
  all_goals
    simp only [LimitInv, applyOp, RotateAbsolute, RotateRelative, RotateToHome,
      RotateToLowerLimit, RotateToUpperLimit, Enable, Disable, EStop, FindHome,
      SetHomePosition, SetLowerLimit, SetUpperLimit, SetRamp, startRotation]
  all_goals first | split_ifs | skip
  all_goals constructor
  all_goals simp_all

/-- The `LimitInv` along any operation sequence. -/
theorem limitInv_applyOps (ops : List Op) :
    ∀ m : Stepper, LimitInv m → LimitInv (applyOps m ops) := by
  induction ops with
  | nil => intro m h; exact h
  | cons op rest ih =>
      intro m h
      exact ih (applyOp m op) (limitInv_applyOp m op h)

/-- C8: `SetLowerLimit v` updates `LowerLimit` to `v` exactly when `v ≤ 0`
and `v ≤ UpperLimit` and is otherwise a no-op; `SetUpperLimit v` updates
`UpperLimit` to `v` exactly when `v ≥ 0` and `v ≥ LowerLimit` and is
otherwise a no-op; consequently `LowerLimit ≤ 0 ≤ UpperLimit` holds after
every sequence of operations from the initial state. -/
theorem C8_limit_setters_and_invariant :
    (∀ (m : Stepper) (v : Int),
      (v ≤ 0 ∧ v ≤ m.UpperLimit → SetLowerLimit m v = { m with LowerLimit := v }) ∧
      (¬(v ≤ 0 ∧ v ≤ m.UpperLimit) → SetLowerLimit m v = m)) ∧
    (∀ (m : Stepper) (v : Int),
      (v ≥ 0 ∧ v ≥ m.LowerLimit → SetUpperLimit m v = { m with UpperLimit := v }) ∧
      (¬(v ≥ 0 ∧ v ≥ m.LowerLimit) → SetUpperLimit m v = m)) ∧
    (∀ (llPin ulPin : Int) (ops : List Op),
      (applyOps (initial llPin ulPin) ops).LowerLimit ≤ 0 ∧
      0 ≤ (applyOps (initial llPin ulPin) ops).UpperLimit) := by
  refine ⟨?_, ?_, ?_⟩
  · intro m v
    constructor <;> intro h <;> simp [SetLowerLimit, h]
  · intro m v
    constructor <;> intro h <;> simp [SetUpperLimit, h]
  · intro llPin ulPin ops
    exact limitInv_applyOps ops (initial llPin ulPin) ⟨by norm_num [initial], by norm_num [initial]⟩

/-- Witness for C8: a valid and an invalid `SetLowerLimit` on the fresh motor,
and the invariant after a short concrete command sequence. -/
theorem C8_witness :
    SetLowerLimit (initial (-1) (-1)) 1 = initial (-1) (-1) ∧
    ((applyOps (initial (-1) (-1)) [Op.enable, Op.setLowerLimit (-100),
        Op.setUpperLimit 100, Op.rotateAbsolute 50 200 0]).LowerLimit ≤ 0 ∧
      0 ≤ (applyOps (initial (-1) (-1)) [Op.enable, Op.setLowerLimit (-100),
        Op.setUpperLimit 100, Op.rotateAbsolute 50 200 0]).UpperLimit) :=
  ⟨(C8_limit_setters_and_invariant.1 (initial (-1) (-1)) 1).2 (by decide),
    C8_limit_setters_and_invariant.2.2 (-1) (-1) _⟩

/-! ## C5: the ramp plan computed by `startRotation` -/

/-- C5: for a non-negative `TotalSteps` (and non-negative `MaxVelocity`, as
for every velocity the firmware's command protocol can produce):
with `VelocityIncrement = 0` the final plan has `RampSteps = 0` and starting
`Velocity = MaxVelocity`; with `VelocityIncrement > 0`, first
`RampSteps = MaxVelocity tdiv VelocityIncrement` (starting `Velocity = 0`
when that is positive, else `MaxVelocity`), then if
`TotalSteps > 2 * RampSteps` the plan is a trapezoid with
`RampDownStep = TotalSteps - RampSteps`, otherwise a triangle with
`RampSteps = RampDownStep = TotalSteps tdiv 2`. -/
theorem C5_ramp_plan (m : Stepper) (now : Nat)
    (hts : 0 ≤ m.TotalSteps) :
    (m.VelocityIncrement = 0 →
      (startRotation m now).RampSteps = 0 ∧
      (startRotation m now).Velocity = m.MaxVelocity) ∧
    (0 < m.VelocityIncrement →
      (0 ≤ m.MaxVelocity → 0 ≤ Int.tdiv m.MaxVelocity m.VelocityIncrement) ∧
      (0 < Int.tdiv m.MaxVelocity m.VelocityIncrement →
        (startRotation m now).Velocity = 0) ∧
      (Int.tdiv m.MaxVelocity m.VelocityIncrement = 0 →
        (startRotation m now).Velocity = m.MaxVelocity) ∧
      (m.TotalSteps > 2 * Int.tdiv m.MaxVelocity m.VelocityIncrement →
        (startRotation m now).RampSteps = Int.tdiv m.MaxVelocity m.VelocityIncrement ∧
        (startRotation m now).RampDownStep =
          m.TotalSteps - Int.tdiv m.MaxVelocity m.VelocityIncrement) ∧
      (m.TotalSteps ≤ 2 * Int.tdiv m.MaxVelocity m.VelocityIncrement →
        (startRotation m now).RampSteps = Int.tdiv m.TotalSteps 2 ∧
        (startRotation m now).RampDownStep = Int.tdiv m.TotalSteps 2)) := by
  constructor
  · intro h0
    have hts0 : m.TotalSteps ≤ 0 → m.TotalSteps = 0 := by omega
    simp only [startRotation, if_pos h0]
    split_ifs <;> simp_all
  · intro hvi
    have hne : ¬ m.VelocityIncrement = 0 := by omega
    refine ⟨fun hmv => Int.tdiv_nonneg hmv (le_of_lt hvi), ?_, ?_, ?_, ?_⟩
    · intro hpos
      have hrs : ¬ Int.tdiv m.MaxVelocity m.VelocityIncrement = 0 := by omega
      simp only [startRotation, if_neg hne, if_neg hrs]
      split_ifs <;> simp
    · intro hz
      simp only [startRotation, if_neg hne, if_pos hz]
      split_ifs <;> simp
    · intro htrap
      have hrs0 : ¬ Int.tdiv m.MaxVelocity m.VelocityIncrement = 0 ∨
          Int.tdiv m.MaxVelocity m.VelocityIncrement = 0 := by tauto
      simp only [startRotation, if_neg hne]
      split_ifs <;> simp_all
    · intro htri
      simp only [startRotation, if_neg hne]
      split_ifs <;> simp_all <;> omega

/-- Witness for C5 on a 10-step rotation at peak 50 with increment 25:
trapezoid with `RampSteps = 2`, `RampDownStep = 8`, starting velocity 0. -/
theorem C5_witness :
    (startRotation plan10 0).Velocity = 0 ∧
    (startRotation plan10 0).RampSteps = 2 ∧
    (startRotation plan10 0).RampDownStep = 8 := by
  have h := (C5_ramp_plan plan10 0 (by decide)).2 (by decide)
  exact ⟨h.2.1 (by decide), (h.2.2.2.1 (by decide)).1, (h.2.2.2.1 (by decide)).2⟩

/-! ## The velocity profile along a rotation (machinery for C4 and C6) -/

/-- One step of the velocity adjustment in `Run` keeps the difference between
`Velocity` and the profile value
`VelocityIncrement * (min k RampSteps - max 0 (k - RampDownStep))` constant. -/
theorem plan_step_formula (VI RS RDS k : Int) (h1 : RS ≤ RDS) (V : Int) :
    (if k + 1 ≤ RS then V + VI else if k + 1 > RDS then V - VI else V) -
      VI * (min (k + 1) RS - max 0 (k + 1 - RDS)) =
    V - VI * (min k RS - max 0 (k - RDS)) := by
  split_ifs with ha hb
  · have h : min (k + 1) RS - max 0 (k + 1 - RDS) =
        min k RS - max 0 (k - RDS) + 1 := by omega
    rw [h]; ring
  · have h : min (k + 1) RS - max 0 (k + 1 - RDS) =
        min k RS - max 0 (k - RDS) - 1 := by omega
    rw [h]; ring
  · have h : min (k + 1) RS - max 0 (k + 1 - RDS) =
        min k RS - max 0 (k - RDS) := by omega
    rw [h]

/-- In any state satisfying `RunInv`, the velocity is at least
`-VelocityIncrement`. -/
theorem runInv_vel_lb (m : Stepper) (h : RunInv m) :
    -m.VelocityIncrement ≤ m.Velocity := by
  obtain ⟨hinc, hvi, hrs, hrsrds, hrdts, htri, hkts, hd, htp, hv0, hex⟩ := h
  have habs : (0 : Int) ≤ |m.DeltaPosition| := abs_nonneg _
  have ht : -1 ≤ min |m.DeltaPosition| m.RampSteps -
      max 0 (|m.DeltaPosition| - m.RampDownStep) := by omega
  have hmul := mul_le_mul_of_nonneg_left ht hvi
  rw [mul_neg_one] at hmul
  linarith

/-- Every call to `Run` either leaves `Velocity` untouched (and the whole
state untouched if it stays `MS_RUNNING`), or takes exactly one in-range step
and applies the ramp adjustment to `Velocity`. -/
theorem run_cases (m : Stepper) (i : RunInput) :
    ((Run m i).1.Velocity = m.Velocity ∧
      ((Run m i).1.State = MS_RUNNING → (Run m i).1 = m)) ∨
    ((Run m i).1.State = MS_RUNNING ∧
      m.AbsolutePosition ≠ m.TargetPosition ∧
      (Run m i).1.AbsolutePosition = m.AbsolutePosition + m.StepIncrement ∧
      (Run m i).1.DeltaPosition = m.DeltaPosition + m.StepIncrement ∧
      (Run m i).1.Velocity =
        (if |m.DeltaPosition + m.StepIncrement| ≤ m.RampSteps then
          m.Velocity + m.VelocityIncrement
        else if |m.DeltaPosition + m.StepIncrement| > m.RampDownStep then
          m.Velocity - m.VelocityIncrement
        else m.Velocity)) := by
  by_cases hg : m.Homed = true ∧ m.State = MS_RUNNING ∧ i.now ≥ m.NextStepMicros
  · obtain ⟨hh, hs, htm⟩ := hg
    by_cases heq : m.AbsolutePosition = m.TargetPosition
    · left
      rw [run_complete m i hh hs htm heq]
      exact ⟨rfl, fun hx => by simp at hx⟩
    · by_cases hlo : m.AbsolutePosition + m.StepIncrement < m.LowerLimit
      · left
        constructor
        · simp only [Run]
          rw [if_pos ⟨hh, hs, htm⟩, if_neg heq, if_pos hlo]
        · intro hx
          simp only [Run] at hx
          rw [if_pos ⟨hh, hs, htm⟩, if_neg heq, if_pos hlo] at hx
          simp at hx
      · by_cases hhi : m.AbsolutePosition + m.StepIncrement > m.UpperLimit
        · left
          constructor
          · simp only [Run]
            rw [if_pos ⟨hh, hs, htm⟩, if_neg heq, if_neg hlo, if_pos hhi]
          · intro hx
            simp only [Run] at hx
            rw [if_pos ⟨hh, hs, htm⟩, if_neg heq, if_neg hlo, if_pos hhi] at hx
            simp at hx
        · by_cases hll : m.LLSwitchPin ≥ 0 ∧ i.llSwitchLow = true
          · left
            constructor
            · simp only [Run]
              rw [if_pos ⟨hh, hs, htm⟩, if_neg heq, if_neg hlo, if_neg hhi, if_pos hll]
            · intro hx
              simp only [Run] at hx
              rw [if_pos ⟨hh, hs, htm⟩, if_neg heq, if_neg hlo, if_neg hhi,
                if_pos hll] at hx
              simp at hx
          · by_cases hul : m.ULSwitchPin ≥ 0 ∧ i.ulSwitchLow = true
            · left
              constructor
              · simp only [Run]
                rw [if_pos ⟨hh, hs, htm⟩, if_neg heq, if_neg hlo, if_neg hhi,
                  if_neg hll, if_pos hul]
              · intro hx
                simp only [Run] at hx
                rw [if_pos ⟨hh, hs, htm⟩, if_neg heq, if_neg hlo, if_neg hhi,
                  if_neg hll, if_pos hul] at hx
                simp at hx
            · right
              refine ⟨?_, heq, ?_, ?_, ?_⟩
              · simp only [Run]
                rw [if_pos ⟨hh, hs, htm⟩, if_neg heq, if_neg hlo, if_neg hhi,
                  if_neg hll, if_neg hul]
                simp [hs]
              · simp only [Run]
                rw [if_pos ⟨hh, hs, htm⟩, if_neg heq, if_neg hlo, if_neg hhi,
                  if_neg hll, if_neg hul]
              · simp only [Run]
                rw [if_pos ⟨hh, hs, htm⟩, if_neg heq, if_neg hlo, if_neg hhi,
                  if_neg hll, if_neg hul]
              · simp only [Run]
                rw [if_pos ⟨hh, hs, htm⟩, if_neg heq, if_neg hlo, if_neg hhi,
                  if_neg hll, if_neg hul]
  · left
    have hr : Run m i = (m, OKAY, false) := by
      simp only [Run]
      rw [if_neg hg]
    rw [hr]
    exact ⟨rfl, fun _ => rfl⟩

/-- The `Run` preserves `RunInv` as long as the state stays `MS_RUNNING`, and the
velocity after any `Run` call on a `RunInv` state is at least
`-VelocityIncrement`. -/
theorem runInv_run (m : Stepper) (i : RunInput) (h : RunInv m) :
    -m.VelocityIncrement ≤ (Run m i).1.Velocity ∧
    ((Run m i).1.State = MS_RUNNING → RunInv (Run m i).1) := by
  rcases run_cases m i with ⟨hvel, hid⟩ | ⟨hst, hne, habs, hdelta, hvel⟩
  · refine ⟨?_, fun hrun => ?_⟩
    · rw [hvel]
      exact runInv_vel_lb m h
    · rw [hid hrun]
      exact h
  · obtain ⟨hinc, hvi, hrs, hrsrds, hrdts, htri, hkts, hd, htp, hv0, hex⟩ := h
    have hfr := run_frame m i
    have hk0 : (0 : Int) ≤ |m.DeltaPosition| := abs_nonneg _
    have hinc1 : |m.StepIncrement| = 1 := by
      rcases hinc with h1 | h1 <;> rw [h1] <;> simp
    have hklt : |m.DeltaPosition| < m.TotalSteps := by
      have hne2 : m.TargetPosition - m.AbsolutePosition ≠ 0 :=
        sub_ne_zero.mpr (Ne.symm hne)
      rw [htp] at hne2
      rcases hinc with h1 | h1 <;> rw [h1] at hne2 <;> simp at hne2 <;> omega
    have hd2 : m.DeltaPosition + m.StepIncrement =
        (|m.DeltaPosition| + 1) * m.StepIncrement := by
      nth_rewrite 1 [hd]
      ring
    have habs2 : |m.DeltaPosition + m.StepIncrement| = |m.DeltaPosition| + 1 := by
      rw [hd2, abs_mul, hinc1, mul_one, abs_of_nonneg (by omega)]
    rw [habs2] at hvel
    have hstep := plan_step_formula m.VelocityIncrement m.RampSteps
      m.RampDownStep |m.DeltaPosition| hrsrds m.Velocity
    constructor
    · -- the velocity bound after the step
      rw [hvel]
      have ht' : -1 ≤ min (|m.DeltaPosition| + 1) m.RampSteps -
          max 0 (|m.DeltaPosition| + 1 - m.RampDownStep) := by omega
      have hmul := mul_le_mul_of_nonneg_left ht' hvi
      rw [mul_neg_one] at hmul
      have : 0 ≤ (if |m.DeltaPosition| + 1 ≤ m.RampSteps then
            m.Velocity + m.VelocityIncrement
          else if |m.DeltaPosition| + 1 > m.RampDownStep then
            m.Velocity - m.VelocityIncrement
          else m.Velocity) -
          m.VelocityIncrement * (min (|m.DeltaPosition| + 1) m.RampSteps -
            max 0 (|m.DeltaPosition| + 1 - m.RampDownStep)) := by
        rw [hstep]
        exact hv0
      linarith
    · -- the invariant after the step
      intro _
      refine ⟨?_, ?_, ?_, ?_, ?_, ?_, ?_, ?_, ?_, ?_, ?_⟩
      · rw [hfr.2.2.2.1]; exact hinc
      · rw [hfr.2.2.2.2.2.1]; exact hvi
      · rw [hfr.2.2.2.2.2.2.1]; exact hrs
      · rw [hfr.2.2.2.2.2.2.1, hfr.2.2.2.2.2.2.2.1]; exact hrsrds
      · rw [hfr.2.2.2.2.2.2.2.1, hfr.2.2.2.2.2.2.2.2.1]; exact hrdts
      · rw [hfr.2.2.2.2.2.2.1, hfr.2.2.2.2.2.2.2.1, hfr.2.2.2.2.2.2.2.2.1]; omega
      · rw [hdelta, habs2, hfr.2.2.2.2.2.2.2.2.1]; omega
      · rw [hdelta, habs2, hfr.2.2.2.1, hd2]
      · rw [hdelta, habs2, hfr.2.2.1, habs, hfr.2.2.2.1, hfr.2.2.2.2.2.2.2.2.1]
        linear_combination htp
      · rw [hdelta, habs2, hvel, hfr.2.2.2.2.2.1, hfr.2.2.2.2.2.2.1,
          hfr.2.2.2.2.2.2.2.1, hstep]
        exact hv0
      · intro hrspos
        rw [hfr.2.2.2.2.2.2.1] at hrspos
        rw [hdelta, habs2, hvel, hfr.2.2.2.2.2.1, hfr.2.2.2.2.2.2.1,
          hfr.2.2.2.2.2.2.2.1]
        have hz := hex hrspos
        have : m.Velocity - m.VelocityIncrement *
            (min |m.DeltaPosition| m.RampSteps -
              max 0 (|m.DeltaPosition| - m.RampDownStep)) = 0 := by
          rw [hz]; ring
        linarith [hstep]

/-- The ramp plan produced by `startRotation` is well-shaped: non-negative
ramp length, `RampSteps ≤ RampDownStep ≤ TotalSteps`, at most `RampSteps + 1`
ramp-down steps, a non-negative starting velocity, and a zero starting
velocity whenever there is a non-trivial ramp. -/
theorem startRotation_plan (m : Stepper) (now : Nat)
    (hts0 : 0 ≤ m.TotalSteps)
    (hvi : 0 ≤ m.VelocityIncrement) (hmv : 0 ≤ m.MaxVelocity) :
    0 ≤ (startRotation m now).RampSteps ∧
    (startRotation m now).RampSteps ≤ (startRotation m now).RampDownStep ∧
    (startRotation m now).RampDownStep ≤ m.TotalSteps ∧
    m.TotalSteps - (startRotation m now).RampDownStep ≤
      (startRotation m now).RampSteps + 1 ∧
    0 ≤ (startRotation m now).Velocity ∧
    (0 < (startRotation m now).RampSteps → (startRotation m now).Velocity = 0) := by
  have h2 : Int.tdiv m.TotalSteps 2 = m.TotalSteps / 2 :=
    Int.tdiv_eq_ediv hts0 (by norm_num)
  have hrsn : 0 ≤ Int.tdiv m.MaxVelocity m.VelocityIncrement :=
    Int.tdiv_nonneg hmv hvi
  simp only [startRotation]
  split_ifs <;> simp_all <;> omega

/-- The `startRotation` sets `StepIncrement = 1` when the target is at or past
the current position. -/
theorem startRotation_inc_pos (m : Stepper) (now : Nat)
    (h : m.TargetPosition ≥ m.AbsolutePosition) :
    (startRotation m now).StepIncrement = 1 := by
  simp only [startRotation]
  split_ifs <;> simp_all

/-- The `startRotation` sets `StepIncrement = -1` when the target is below the
current position. -/
theorem startRotation_inc_neg (m : Stepper) (now : Nat)
    (h : ¬ m.TargetPosition ≥ m.AbsolutePosition) :
    (startRotation m now).StepIncrement = -1 := by
  simp only [startRotation]
  split_ifs <;> simp_all

/-- When `TotalSteps` is the distance to the target (as every rotate
operation sets it), the direction chosen by `startRotation` satisfies
`TargetPosition - AbsolutePosition = TotalSteps * StepIncrement`. -/
theorem startRotation_dir (m : Stepper) (now : Nat)
    (hts : m.TotalSteps = |m.TargetPosition - m.AbsolutePosition|) :
    m.TargetPosition - m.AbsolutePosition =
      m.TotalSteps * (startRotation m now).StepIncrement := by
  by_cases hge : m.TargetPosition ≥ m.AbsolutePosition
  · rw [startRotation_inc_pos m now hge, mul_one, hts,
      abs_of_nonneg (by omega)]
  · rw [startRotation_inc_neg m now hge, hts,
      abs_of_neg (show m.TargetPosition - m.AbsolutePosition < 0 by omega)]
    ring

/-- A rotation started by `startRotation` from a state whose `TotalSteps` is
the distance to the target satisfies `RunInv`. -/
theorem runInv_startRotation (m : Stepper) (now : Nat)
    (hvi : 0 ≤ m.VelocityIncrement) (hmv : 0 ≤ m.MaxVelocity)
    (hts : m.TotalSteps = |m.TargetPosition - m.AbsolutePosition|) :
    RunInv (startRotation m now) := by
  have hts0 : 0 ≤ m.TotalSteps := by rw [hts]; exact abs_nonneg _
  have heff := startRotation_effect m now
  have hplan := startRotation_plan m now hts0 hvi hmv
  have hdir := startRotation_dir m now hts
  have hinc : (startRotation m now).StepIncrement = 1 ∨
      (startRotation m now).StepIncrement = -1 := by
    by_cases hge : m.TargetPosition ≥ m.AbsolutePosition
    · exact Or.inl (startRotation_inc_pos m now hge)
    · exact Or.inr (startRotation_inc_neg m now hge)
  have hrds0 : 0 ≤ (startRotation m now).RampDownStep := le_trans hplan.1 hplan.2.1
  refine ⟨hinc, ?_, hplan.1, hplan.2.1, ?_, ?_, ?_, ?_, ?_, ?_, ?_⟩
  · rw [heff.2.2.2.2.2.2.2.2.1]; exact hvi
  · rw [heff.2.2.2.2.2.2.2.1]; exact hplan.2.2.1
  · rw [heff.2.2.2.2.2.2.2.1]; exact hplan.2.2.2.1
  · rw [heff.2.1]
    simpa using hts0.trans_eq heff.2.2.2.2.2.2.2.1.symm
  · rw [heff.2.1]; simp
  · rw [heff.2.1, heff.2.2.2.2.1, heff.2.2.2.2.2.1, heff.2.2.2.2.2.2.2.1]
    simpa using hdir
  · rw [heff.2.1]
    have hmin : min |(0 : Int)| (startRotation m now).RampSteps = 0 := by
      simp [hplan.1]
    have hmax : max 0 (|(0 : Int)| - (startRotation m now).RampDownStep) = 0 := by
      simp
      omega
    rw [hmin, hmax]
    simpa using hplan.2.2.2.2.1
  · intro hrspos
    rw [heff.2.1]
    have hmin : min |(0 : Int)| (startRotation m now).RampSteps = 0 := by
      simp [hplan.1]
    have hmax : max 0 (|(0 : Int)| - (startRotation m now).RampDownStep) = 0 := by
      simp
      omega
    rw [hmin, hmax]
    simpa using hplan.2.2.2.2.2 hrspos

/-! ## C4: velocity sign during a rotation -/

/-- The `Enable` on the fresh motor, evaluated. -/
theorem enabled0_eval : Enable (initial (-1) (-1)) = enabled0 := by decide

/-- The `triangle3`, evaluated. -/
theorem triangle3_eval : triangle3 = tri0 := by
  unfold triangle3
  rw [enabled0_eval]
  decide

/-- The three due steps of the `triangle3` rotation, evaluated one call at a
time. -/
theorem tri_run1 : Run tri0 ready = (tri1, OKAY, true) := by decide

theorem tri_run2 : Run tri1 ready = (tri2, OKAY, true) := by decide

theorem tri_run3 : Run tri2 ready = (tri3, OKAY, true) := by decide

/-- The `triangle3after`, evaluated. -/
theorem triangle3after_eval : triangle3after = tri3 := by
  unfold triangle3after
  rw [triangle3_eval]
  simp only [tri_run1, tri_run2, tri_run3]

/-- C4 counterexample: the 3-step rotation `triangle3` (stunted triangle,
`RampSteps = RampDownStep = 1`) reaches `Velocity = -25 < 0` on its third
step while still `MS_RUNNING` (the call returning `RUN_COMPLETE` only comes
afterwards), refuting `Velocity ≥ 0` after each `Run` call. -/
theorem C4_counterexample :
    triangle3after.State = MS_RUNNING ∧ triangle3after.Velocity < 0 := by
  rw [triangle3after_eval]
  decide

/-- C4 (amended): every rotation started by a rotate operation (with the
reachable sign conditions `VelocityIncrement ≥ 0` and a non-negative
commanded velocity) establishes `RunInv`, `Run` maintains `RunInv` while the
state stays `MS_RUNNING`, and after every `Run` call on a `RunInv` state the
velocity is at least `-VelocityIncrement` (it can dip exactly that far below
zero on the final steps of an odd-length triangle profile, as the
counterexample shows, but no further). -/
theorem C4_velocity_lower_bound (m : Stepper) (i : RunInput)
    (p nv v : Int) (now : Nat) :
    (0 ≤ m.VelocityIncrement → 0 ≤ v → RunInv (RotateAbsolute m p v now)) ∧
    (0 ≤ m.VelocityIncrement → 0 ≤ v → nv ≠ 0 →
      RunInv (RotateRelative m nv v now)) ∧
    (0 ≤ m.VelocityIncrement → RunInv (RotateToHome m now)) ∧
    (0 ≤ m.VelocityIncrement → RunInv (RotateToLowerLimit m now)) ∧
    (0 ≤ m.VelocityIncrement → RunInv (RotateToUpperLimit m now)) ∧
    (RunInv m →
      -m.VelocityIncrement ≤ (Run m i).1.Velocity ∧
      ((Run m i).1.State = MS_RUNNING → RunInv (Run m i).1)) := by
  refine ⟨?_, ?_, ?_, ?_, ?_, runInv_run m i⟩
  · intro hvi hv
    exact runInv_startRotation _ now hvi hv rfl
  · intro hvi hv hnv
    simp only [RotateRelative, if_pos hnv]
    refine runInv_startRotation _ now hvi hv ?_
    simp
  · intro hvi
    refine runInv_startRotation _ now hvi
      (show (0 : Int) ≤ HOMING_SPEED by decide) ?_
    simp
  · intro hvi
    refine runInv_startRotation _ now hvi
      (show (0 : Int) ≤ HOMING_SPEED by decide) ?_
    simp [abs_sub_comm]
  · intro hvi
    refine runInv_startRotation _ now hvi
      (show (0 : Int) ≤ HOMING_SPEED by decide) ?_
    simp [abs_sub_comm]

/-- Witness for C4 (amended): the invariant holds for a concrete rotation,
and the velocity bound holds across a concrete `Run` call. -/
theorem C4_witness :
    RunInv (RotateAbsolute enabled0 5 50 0) ∧
    -tri0.VelocityIncrement ≤ (Run tri0 ready).1.Velocity :=
  ⟨(C4_velocity_lower_bound enabled0 ready 5 3 50 0).1 (by decide) (by decide),
    ((C4_velocity_lower_bound tri0 ready 5 3 50 0).2.2.2.2.2 (by decide)).1⟩

/-! ## C6: plateau velocity of a trapezoid rotation -/

/-- The trapezoid branch of `startRotation`: when the distance exceeds twice
the computed ramp length, `RampSteps` keeps the value
`MaxVelocity tdiv VelocityIncrement` and `RampDownStep` is
`TotalSteps - RampSteps`. -/
theorem startRotation_trapezoid (m : Stepper) (now : Nat)
    (hvi : m.VelocityIncrement ≠ 0)
    (htrap : m.TotalSteps > 2 * Int.tdiv m.MaxVelocity m.VelocityIncrement) :
    (startRotation m now).RampSteps = Int.tdiv m.MaxVelocity m.VelocityIncrement ∧
    (startRotation m now).RampDownStep =
      m.TotalSteps - Int.tdiv m.MaxVelocity m.VelocityIncrement := by
  simp only [startRotation]
  split_ifs <;> simp_all

/-- The `trap5`, evaluated. -/
theorem trap5_eval : trap5 = trap0 := by
  unfold trap5
  rw [enabled0_eval]
  decide

/-- The first two due steps of the `trap5` rotation, evaluated one call at a
time. -/
theorem trap_run1 : Run trap0 ready = (trap1, OKAY, true) := by decide

theorem trap_run2 : Run trap1 ready = (trap2, OKAY, true) := by decide

/-- The `trap5after`, evaluated. -/
theorem trap5after_eval : trap5after = trap2 := by
  unfold trap5after
  rw [trap5_eval]
  simp only [trap_run1, trap_run2]

/-- C6 counterexample: in the trapezoid rotation `trap5` (peak velocity 30,
increment 25, `RampSteps = 1`, `RampDownStep = 4`), the second step lies in
the plateau (`RampSteps < |DeltaPosition| ≤ RampDownStep`), yet
`Velocity = 25 ≠ 30 = MaxVelocity`: the plateau velocity is not exactly
`MaxVelocity`. -/
theorem C6_counterexample :
    trap5after.State = MS_RUNNING ∧
    trap5after.RampSteps < |trap5after.DeltaPosition| ∧
    |trap5after.DeltaPosition| ≤ trap5after.RampDownStep ∧
    trap5after.Velocity ≠ trap5after.MaxVelocity := by
  rw [trap5after_eval]
  decide

/-- C6 (amended): a trapezoid rotation started by `RotateAbsolute` (with
`VelocityIncrement > 0`, a non-negative commanded velocity, and distance
exceeding twice the ramp length) has
`RampSteps = MaxVelocity tdiv VelocityIncrement`,
`RampDownStep = TotalSteps - RampSteps` and satisfies `RunInv`; in any
`RunInv` state of trapezoid shape the velocity is never negative, and during
the plateau it equals `VelocityIncrement * RampSteps` exactly — which is
`MaxVelocity` rounded down to a multiple of `VelocityIncrement`, hence equal
to `MaxVelocity` precisely when `VelocityIncrement` divides it. -/
theorem C6_plateau_velocity (m m2 : Stepper) (p v : Int) (now : Nat) :
    (0 < m.VelocityIncrement → 0 ≤ v →
      |p - m.AbsolutePosition| > 2 * Int.tdiv v m.VelocityIncrement →
      (RotateAbsolute m p v now).RampSteps = Int.tdiv v m.VelocityIncrement ∧
      (RotateAbsolute m p v now).RampDownStep =
        (RotateAbsolute m p v now).TotalSteps -
          (RotateAbsolute m p v now).RampSteps ∧
      RunInv (RotateAbsolute m p v now)) ∧
    (RunInv m2 → m2.RampDownStep = m2.TotalSteps - m2.RampSteps →
      0 ≤ m2.Velocity ∧
      (0 < m2.RampSteps → m2.RampSteps ≤ |m2.DeltaPosition| →
        |m2.DeltaPosition| ≤ m2.RampDownStep →
        m2.Velocity = m2.VelocityIncrement * m2.RampSteps)) ∧
    (0 < m2.VelocityIncrement → 0 ≤ m2.MaxVelocity →
      m2.VelocityIncrement * Int.tdiv m2.MaxVelocity m2.VelocityIncrement ≤
        m2.MaxVelocity ∧
      m2.MaxVelocity < m2.VelocityIncrement *
        Int.tdiv m2.MaxVelocity m2.VelocityIncrement + m2.VelocityIncrement ∧
      (m2.VelocityIncrement ∣ m2.MaxVelocity →
        m2.VelocityIncrement * Int.tdiv m2.MaxVelocity m2.VelocityIncrement =
          m2.MaxVelocity)) := by
  refine ⟨?_, ?_, ?_⟩
  · intro hvi hv htrap
    have htz := startRotation_trapezoid
      { m with TargetPosition := p, MaxVelocity := v,
               TotalSteps := |p - m.AbsolutePosition| } now
      (by simpa using ne_of_gt hvi) (by simpa using htrap)
    have heff := startRotation_effect
      { m with TargetPosition := p, MaxVelocity := v,
               TotalSteps := |p - m.AbsolutePosition| } now
    refine ⟨?_, ?_, runInv_startRotation _ now (le_of_lt hvi) hv rfl⟩
    · simpa [RotateAbsolute] using htz.1
    · simp only [RotateAbsolute]
      rw [htz.2, heff.2.2.2.2.2.2.2.1, htz.1]
  · intro hinv htrap
    obtain ⟨hincl, hvi, hrs, hrsrds, hrdts, htri, hkts, hd, htp, hv0, hex⟩ := hinv
    have hk0 : (0 : Int) ≤ |m2.DeltaPosition| := abs_nonneg _
    constructor
    · have ht0 : 0 ≤ min |m2.DeltaPosition| m2.RampSteps -
          max 0 (|m2.DeltaPosition| - m2.RampDownStep) := by omega
      have := mul_nonneg hvi ht0
      linarith
    · intro hrspos hk1 hk2
      have hmin : min |m2.DeltaPosition| m2.RampSteps = m2.RampSteps := by omega
      have hmax : max 0 (|m2.DeltaPosition| - m2.RampDownStep) = 0 := by omega
      rw [hex hrspos, hmin, hmax, sub_zero]
  · intro hvi hmv
    rw [Int.tdiv_eq_ediv hmv (le_of_lt hvi)]
    have hdm := Int.ediv_add_emod m2.MaxVelocity m2.VelocityIncrement
    have hnn := Int.emod_nonneg m2.MaxVelocity (ne_of_gt hvi)
    have hlt := Int.emod_lt_of_pos m2.MaxVelocity hvi
    refine ⟨by omega, by omega, fun hdvd => ?_⟩
    have hz : m2.MaxVelocity % m2.VelocityIncrement = 0 :=
      Int.emod_eq_zero_of_dvd hdvd
    omega

/-- Witness for C6 (amended) on concrete trapezoid states
(`MaxVelocity = 30`, `VelocityIncrement = 25`, plateau velocity 25). -/
theorem C6_witness :
    (RotateAbsolute enabled0 5 30 0).RampSteps = 1 ∧
    RunInv (RotateAbsolute enabled0 5 30 0) ∧
    0 ≤ trap2.Velocity ∧
    trap2.Velocity = trap2.VelocityIncrement * trap2.RampSteps ∧
    trap2.VelocityIncrement * Int.tdiv trap2.MaxVelocity trap2.VelocityIncrement ≤
      trap2.MaxVelocity := by
  have h1 := (C6_plateau_velocity enabled0 trap2 5 30 0).1
    (by decide) (by decide) (by decide)
  have h2 := (C6_plateau_velocity enabled0 trap2 5 30 0).2.1
    (by decide) (by decide)
  have h3 := (C6_plateau_velocity enabled0 trap2 5 30 0).2.2
    (by decide) (by decide)
  refine ⟨?_, h1.2.2, h2.1, h2.2 (by decide) (by decide) (by decide), h3.1⟩
  rw [h1.1]
  decide

/-! ## C9: the round-trip `Enable; SetHomePosition; RotateRelative n v` -/

/-- Driving lemma: a homed, running motor whose target lies `j` steps ahead
in the direction of `StepIncrement`, with the current and target positions
inside the soft limits, completes in `j + 1` due `Run` calls, ending at the
target with `DeltaPosition` advanced by `j * StepIncrement`. -/
theorem run_drive (j : Nat) : ∀ m : Stepper,
    m.Homed = true → m.State = MS_RUNNING →
    (m.StepIncrement = 1 ∨ m.StepIncrement = -1) →
    m.TargetPosition - m.AbsolutePosition = (j : Int) * m.StepIncrement →
    m.LowerLimit ≤ m.AbsolutePosition → m.AbsolutePosition ≤ m.UpperLimit →
    m.LowerLimit ≤ m.TargetPosition → m.TargetPosition ≤ m.UpperLimit →
    (runUntilComplete (j + 1) m).2 = RUN_COMPLETE ∧
    (runUntilComplete (j + 1) m).1.AbsolutePosition = m.TargetPosition ∧
    (runUntilComplete (j + 1) m).1.DeltaPosition =
      m.DeltaPosition + (j : Int) * m.StepIncrement := by
  induction j with
  | zero =>
    intro m hh hs hinc htp hla hau hlt htu
    have heq : m.AbsolutePosition = m.TargetPosition := by
      rcases hinc with h1 | h1 <;> rw [h1] at htp <;> push_cast at htp <;> omega
    simp only [runUntilComplete]
    rw [run_complete m ⟨m.NextStepMicros, false, false⟩ hh hs (le_refl _) heq]
    simp [heq]
  | succ j ih =>
    intro m hh hs hinc htp hla hau hlt htu
    have hne : m.AbsolutePosition ≠ m.TargetPosition := by
      intro hcon
      rw [hcon] at htp
      rcases hinc with h1 | h1 <;> rw [h1] at htp <;> push_cast at htp <;> omega
    have hlo : ¬ m.AbsolutePosition + m.StepIncrement < m.LowerLimit := by
      rcases hinc with h1 | h1 <;> rw [h1] <;> rw [h1] at htp <;>
        push_cast at htp <;> omega
    have hhi : ¬ m.AbsolutePosition + m.StepIncrement > m.UpperLimit := by
      rcases hinc with h1 | h1 <;> rw [h1] <;> rw [h1] at htp <;>
        push_cast at htp <;> omega
    have hstep := run_step m ⟨m.NextStepMicros, false, false⟩ hh hs (le_refl _)
      hne hlo hhi rfl rfl
    have hfr := run_frame m ⟨m.NextStepMicros, false, false⟩
    have hrec := ih (Run m ⟨m.NextStepMicros, false, false⟩).1
      (by rw [hfr.2.2.2.2.1]; exact hh)
      hstep.2.2.1
      (by rw [hfr.2.2.2.1]; exact hinc)
      (by
        rw [hfr.2.2.1, hstep.2.2.2.1, hfr.2.2.2.1]
        push_cast at htp ⊢
        linarith [htp])
      (by
        rw [hfr.1, hstep.2.2.2.1]
        rcases hinc with h1 | h1 <;> rw [h1] <;> rw [h1] at htp <;>
          push_cast at htp <;> omega)
      (by
        rw [hfr.2.1, hstep.2.2.2.1]
        rcases hinc with h1 | h1 <;> rw [h1] <;> rw [h1] at htp <;>
          push_cast at htp <;> omega)
      (by rw [hfr.1, hfr.2.2.1]; exact hlt)
      (by rw [hfr.2.1, hfr.2.2.1]; exact htu)
    rw [runUntilComplete]
    simp only [hstep.1]
    rw [if_neg (show ¬ (OKAY = RUN_COMPLETE) by decide)]
    refine ⟨hrec.1, ?_, ?_⟩
    · rw [hrec.2.1, hfr.2.2.1]
    · rw [hrec.2.2, hstep.2.2.2.2.1, hfr.2.2.2.1]
      push_cast
      ring

/-- C9: from any state whose limits bracket both the home position and `n`
(which holds in every reachable state, cf. C8), the sequence
`Enable(); SetHomePosition(); RotateRelative(n, v)` with `n ≠ 0`, `v > 0`,
driven by due `Run` calls until `RUN_COMPLETE`, ends with
`AbsolutePosition = n` and `DeltaPosition = n`. -/
theorem C9_round_trip (m : Stepper) (n v : Int) (now : Nat)
    (hn : n ≠ 0) (hv : 0 < v)
    (hl0 : m.LowerLimit ≤ 0) (hu0 : 0 ≤ m.UpperLimit)
    (hln : m.LowerLimit ≤ n) (hun : n ≤ m.UpperLimit) :
    (runUntilComplete (n.natAbs + 1) (enableHomeRotate m n v now)).2 =
      RUN_COMPLETE ∧
    (runUntilComplete (n.natAbs + 1) (enableHomeRotate m n v now)).1.AbsolutePosition
      = n ∧
    (runUntilComplete (n.natAbs + 1) (enableHomeRotate m n v now)).1.DeltaPosition
      = n := by
  have hrr : enableHomeRotate m n v now =
      startRotation
        { SetHomePosition (Enable m) with
          TargetPosition := (SetHomePosition (Enable m)).AbsolutePosition + n
          MaxVelocity := v
          TotalSteps := |n| } now := by
    rw [enableHomeRotate, RotateRelative, if_pos hn]
  have hMap : ({ SetHomePosition (Enable m) with
      TargetPosition := (SetHomePosition (Enable m)).AbsolutePosition + n
      MaxVelocity := v
      TotalSteps := |n| } : Stepper).AbsolutePosition = 0 := by
    simp [SetHomePosition, Enable]
  have hMtp : ({ SetHomePosition (Enable m) with
      TargetPosition := (SetHomePosition (Enable m)).AbsolutePosition + n
      MaxVelocity := v
      TotalSteps := |n| } : Stepper).TargetPosition = n := by
    simp [SetHomePosition, Enable]
  have hMhomed : ({ SetHomePosition (Enable m) with
      TargetPosition := (SetHomePosition (Enable m)).AbsolutePosition + n
      MaxVelocity := v
      TotalSteps := |n| } : Stepper).Homed = true := by
    simp [SetHomePosition, Enable]
  have hMlow : ({ SetHomePosition (Enable m) with
      TargetPosition := (SetHomePosition (Enable m)).AbsolutePosition + n
      MaxVelocity := v
      TotalSteps := |n| } : Stepper).LowerLimit = m.LowerLimit := by
    simp [SetHomePosition, Enable]
  have hMup : ({ SetHomePosition (Enable m) with
      TargetPosition := (SetHomePosition (Enable m)).AbsolutePosition + n
      MaxVelocity := v
      TotalSteps := |n| } : Stepper).UpperLimit = m.UpperLimit := by
    simp [SetHomePosition, Enable]
  have hMts : ({ SetHomePosition (Enable m) with
      TargetPosition := (SetHomePosition (Enable m)).AbsolutePosition + n
      MaxVelocity := v
      TotalSteps := |n| } : Stepper).TotalSteps = |n| := rfl
  set M : Stepper :=
    { SetHomePosition (Enable m) with
      TargetPosition := (SetHomePosition (Enable m)).AbsolutePosition + n
      MaxVelocity := v
      TotalSteps := |n| } with hMdef
  have heff := startRotation_effect M now
  have hdir := startRotation_dir M now (by rw [hMts, hMtp, hMap, sub_zero])
  have hinc : (startRotation M now).StepIncrement = 1 ∨
      (startRotation M now).StepIncrement = -1 := by
    by_cases hge : M.TargetPosition ≥ M.AbsolutePosition
    · exact Or.inl (startRotation_inc_pos M now hge)
    · exact Or.inr (startRotation_inc_neg M now hge)
  have habsn : ((n.natAbs : Nat) : Int) = |n| := (Int.abs_eq_natAbs n).symm
  have hdrive := run_drive n.natAbs (startRotation M now)
    (by rw [heff.2.2.2.1, hMhomed])
    heff.1
    hinc
    (by
      rw [heff.2.2.2.2.1, heff.2.2.2.2.2.1, hMtp, hMap, sub_zero, habsn]
      rw [hMtp, hMap, sub_zero] at hdir
      rw [hMts] at hdir
      exact hdir)
    (by rw [heff.2.2.2.2.2.2.2.2.2.1, heff.2.2.2.2.1, hMlow, hMap]; exact hl0)
    (by rw [heff.2.2.2.2.2.2.2.2.2.2.1, heff.2.2.2.2.1, hMup, hMap]; exact hu0)
    (by rw [heff.2.2.2.2.2.2.2.2.2.1, heff.2.2.2.2.2.1, hMlow, hMtp]; exact hln)
    (by rw [heff.2.2.2.2.2.2.2.2.2.2.1, heff.2.2.2.2.2.1, hMup, hMtp]; exact hun)
  rw [hrr]
  refine ⟨hdrive.1, ?_, ?_⟩
  · rw [hdrive.2.1, heff.2.2.2.2.2.1, hMtp]
  · rw [hdrive.2.2, heff.2.1, habsn]
    rw [hMtp, hMap, sub_zero, hMts] at hdir
    rw [← hdir]
    ring

/-- Witness for C9: the concrete round trip with `n = -4`, `v = 200` on the
fresh motor ends at `AbsolutePosition = DeltaPosition = -4`. -/
theorem C9_witness :
    (runUntilComplete ((-4 : Int).natAbs + 1)
      (enableHomeRotate (initial (-1) (-1)) (-4) 200 0)).2 = RUN_COMPLETE ∧
    (runUntilComplete ((-4 : Int).natAbs + 1)
      (enableHomeRotate (initial (-1) (-1)) (-4) 200 0)).1.AbsolutePosition = -4 ∧
    (runUntilComplete ((-4 : Int).natAbs + 1)
      (enableHomeRotate (initial (-1) (-1)) (-4) 200 0)).1.DeltaPosition = -4 :=
  C9_round_trip (initial (-1) (-1)) (-4) 200 0 (by decide) (by decide)
    (by decide) (by decide) (by decide) (by decide)
